import Mathlib

/-!
Verification of the selector-matching and bulk-update engine of plotly.py.

This development embeds, as a shallow Lean model, the data model and the
operations of the selection / bulk-update engine of the repository
(`select_traces`, `for_each_trace`, `update_traces` and the per-subplot-family
variants emitted by `codegen/figure.py`), together with the relevant parts of
the code generator itself.

The runtime engine (`BasePlotlyType.update`, `BaseFigure.select_traces`,
`_select_layout_subplots_by_prefix`, the grid resolver) lives in
`plotly/basedatatypes.py`, which is not part of the source tree given here;
only its code generator, callers and tests are.  Following the specification
(spec.md §3, §4.1–§4.3, §7), those parts are *modelled from the spec*: each
such definition carries a doc comment saying so.  The code generator
`codegen/figure.py` is present in the source tree and is embedded directly.
-/

/-- Modelled from the spec (§3 Data model): a dynamic property value of a
plot object: a scalar (string / integer / boolean), a nested property
container (an insertion-ordered mapping from property names to values, as a
Python dict), or an ordered sequence. -/
inductive Val where
  | s : String → Val
  | i : Int → Val
  | b : Bool → Val
  | obj : List (String × Val) → Val
  | arr : List Val → Val
deriving Repr

mutual

/-- Structural equality test on values (the model of Python `==` on the
nested property data; spec §4.1 "full structural equality"). -/
def Val.beq : Val → Val → Bool
  | .s a, .s c => a = c
  | .i a, .i c => a = c
  | .b a, .b c => a = c
  | .obj a, .obj c => beqPairs a c
  | .arr a, .arr c => beqVals a c
  | _, _ => false

/-- Structural equality test on property-container entry lists. -/
def beqPairs : List (String × Val) → List (String × Val) → Bool
  | [], [] => true
  | (k, v) :: r, (k', v') :: r' => k = k' && Val.beq v v' && beqPairs r r'
  | _, _ => false

/-- Structural equality test on ordered value sequences. -/
def beqVals : List Val → List Val → Bool
  | [], [] => true
  | v :: r, v' :: r' => Val.beq v v' && beqVals r r'
  | _, _ => false

end

mutual

theorem Val.beq_iff : ∀ a c : Val, Val.beq a c = true ↔ a = c
  | .s a, .s c => by simp [Val.beq]
  | .i a, .i c => by simp [Val.beq]
  | .b a, .b c => by simp [Val.beq]
  | .obj a, .obj c => by simp [Val.beq, beqPairs_iff a c]
  | .arr a, .arr c => by simp [Val.beq, beqVals_iff a c]
  | .s a, .i c => by simp [Val.beq]
  | .s a, .b c => by simp [Val.beq]
  | .s a, .obj c => by simp [Val.beq]
  | .s a, .arr c => by simp [Val.beq]
  | .i a, .s c => by simp [Val.beq]
  | .i a, .b c => by simp [Val.beq]
  | .i a, .obj c => by simp [Val.beq]
  | .i a, .arr c => by simp [Val.beq]
  | .b a, .s c => by simp [Val.beq]
  | .b a, .i c => by simp [Val.beq]
  | .b a, .obj c => by simp [Val.beq]
  | .b a, .arr c => by simp [Val.beq]
  | .obj a, .s c => by simp [Val.beq]
  | .obj a, .i c => by simp [Val.beq]
  | .obj a, .b c => by simp [Val.beq]
  | .obj a, .arr c => by simp [Val.beq]
  | .arr a, .s c => by simp [Val.beq]
  | .arr a, .i c => by simp [Val.beq]
  | .arr a, .b c => by simp [Val.beq]
  | .arr a, .obj c => by simp [Val.beq]

theorem beqPairs_iff : ∀ a c : List (String × Val), beqPairs a c = true ↔ a = c
  | [], [] => by simp [beqPairs]
  | (k, v) :: r, (k', v') :: r' => by
    simp [beqPairs, Val.beq_iff v v', beqPairs_iff r r', Prod.ext_iff, and_assoc]
  | [], (_, _) :: _ => by simp [beqPairs]
  | (_, _) :: _, [] => by simp [beqPairs]

theorem beqVals_iff : ∀ a c : List Val, beqVals a c = true ↔ a = c
  | [], [] => by simp [beqVals]
  | v :: r, v' :: r' => by simp [beqVals, Val.beq_iff v v', beqVals_iff r r']
  | [], _ :: _ => by simp [beqVals]
  | _ :: _, [] => by simp [beqVals]

end

instance : DecidableEq Val := fun a c => decidable_of_iff _ (Val.beq_iff a c)

/-- Modelled from the spec (§9 design notes): one segment of a canonical
property path — either a property name or a numeric index into an ordered
sequence ("a single path-tokenizer producing a canonical ordered list of
{name, index} segments"). -/
inductive Seg where
  | name : String → Seg
  | idx : Nat → Seg
deriving DecidableEq, Repr

/-- The four separator characters of the dotted / underscore-flattened /
bracket-indexed key syntaxes (spec §4.1, §9: dotted and underscore keys
resolve identically, numeric segments index sequences). -/
def isSep (c : Char) : Bool :=
  c = '.' || c = '_' || c = '[' || c = ']'

/-- Accumulator-based splitter: cut a character list at separator characters,
dropping empty tokens. -/
def splitCsAux : List Char → List Char → List (List Char)
  | [], acc => if acc = [] then [] else [acc.reverse]
  | c :: cs, acc =>
    if isSep c then
      if acc = [] then splitCsAux cs [] else acc.reverse :: splitCsAux cs []
    else
      splitCsAux cs (c :: acc)

/-- Split a character list at separators, dropping empty tokens. -/
def splitCs (cs : List Char) : List (List Char) :=
  splitCsAux cs []

/-- Is `c` a decimal digit character? -/
def isDigitCh (c : Char) : Bool :=
  '0' ≤ c && c ≤ '9'

/-- Numeric value of a decimal digit character. -/
def digitVal (c : Char) : Nat :=
  c.toNat - 48

/-- Decimal digit character of `n < 10`. -/
def digitCh (n : Nat) : Char :=
  Char.ofNat (48 + n)

/-- Fold a list of decimal digit characters into the number they denote. -/
def charsToNatAux : Nat → List Char → Nat
  | acc, [] => acc
  | acc, c :: cs => charsToNatAux (acc * 10 + digitVal c) cs

/-- Number denoted by a list of decimal digit characters. -/
def charsToNat (cs : List Char) : Nat :=
  charsToNatAux 0 cs

/-- Fuelled decimal rendering of a natural number (most significant digit
first); `fuel ≥ n + 1` is always sufficient. -/
def natCharsAux : Nat → Nat → List Char
  | 0, _ => []
  | fuel + 1, n =>
    if n < 10 then [digitCh n]
    else natCharsAux fuel (n / 10) ++ [digitCh (n % 10)]

/-- Decimal rendering of a natural number as a character list. -/
def natChars (n : Nat) : List Char :=
  natCharsAux (n + 1) n

/-- Classify one token produced by the splitter: an all-digit token is a
numeric index segment, any other token is a property-name segment. -/
def tokOf (t : List Char) : Seg :=
  if t.all isDigitCh then Seg.idx (charsToNat t) else Seg.name (String.mk t)

/-- Modelled from the spec (§4.1, §9): the single path tokenizer shared by
dotted keys (`"marker.line.color"`, `"dimensions[1].label"`) and
underscore-flattened keys (`"marker_line_color"`, `"dimensions_1_label"`):
split the key at `.`, `_`, `[`, `]`, dropping empty tokens, and read all-digit
tokens as numeric index segments. -/
def tokenizeChars (cs : List Char) : List Seg :=
  (splitCs cs).map tokOf

/-- Tokenize a string selector / patch key into a canonical path. -/
def tokenizePath (s : String) : List Seg :=
  tokenizeChars s.data

/-- First-occurrence lookup in an insertion-ordered association list (the
model of Python dict lookup). -/
def assocLookup (k : String) : List (String × Val) → Option Val
  | [] => none
  | (k', v) :: rest => if k' = k then some v else assocLookup k rest

/-- Set a key in an insertion-ordered association list: replace the first
occurrence in place, or append when absent (the model of Python dict
assignment). -/
def assocSet (k : String) (v : Val) : List (String × Val) → List (String × Val)
  | [] => [(k, v)]
  | (k', v') :: rest =>
    if k' = k then (k', v) :: rest else (k', v') :: assocSet k v rest

/-- Modelled from the spec (§4.1): resolve a canonical path against the nested
property tree of a value — a name segment looks a property up in a nested
container, a numeric segment indexes into an ordered sequence; a path that
cannot be resolved yields `none`. -/
def lookupPath : List Seg → Val → Option Val
  | [], o => some o
  | Seg.name k :: rest, Val.obj kvs =>
    match assocLookup k kvs with
    | some c => lookupPath rest c
    | none => none
  | Seg.idx j :: rest, Val.arr xs =>
    match xs[j]? with
    | some c => lookupPath rest c
    | none => none
  | _, _ => none

/-- Modelled from the spec (§4.3): nested property set along a canonical
path, "creating intermediate containers as needed along the resolved path";
a numeric segment indexes into an *existing* ordered sequence and assigning
past the end is an error (`none`), not an append. -/
def setPath : List Seg → Val → Val → Option Val
  | [], _, v => some v
  | Seg.name k :: rest, o, v =>
    match o with
    | Val.obj kvs =>
      match setPath rest ((assocLookup k kvs).getD (Val.obj [])) v with
      | some c => some (Val.obj (assocSet k c kvs))
      | none => none
    | _ => none
  | Seg.idx j :: rest, o, v =>
    match o with
    | Val.arr xs =>
      match xs[j]? with
      | some c =>
        match setPath rest c v with
        | some c' => some (Val.arr (xs.set j c'))
        | none => none
      | none => none
    | _ => none

/-- Modelled from the spec (§3, §9): a selector is either a single-argument
predicate over an object or a mapping from dotted/underscore property paths
to expected values — "model as a tagged variant {PredicateSelector,
PropertyMapSelector}". -/
inductive Selector where
  | pred : (Val → Bool) → Selector
  | map : List (String × Val) → Selector

/-- Modelled from the spec (§4.1): mapping-selector matching: every
(key, expected) pair must resolve through the shared path tokenizer and the
resolved value must equal `expected` exactly (full structural equality for
containers); an unresolvable key is a non-match. -/
def matchesMap (o : Val) : List (String × Val) → Bool
  | [] => true
  | (k, e) :: rest =>
    decide (lookupPath (tokenizePath k) o = some e) && matchesMap o rest

/-- Modelled from the spec (§4.1): `matches(object, selector)`: a predicate
selector is invoked directly, a mapping selector requires all keys to match. -/
def matchesSelector (o : Val) : Selector → Bool
  | Selector.pred f => f o
  | Selector.map l => matchesMap o l

/-- Modelled from the spec (§4.1): an absent selector matches everything. -/
def matchesOpt (o : Val) : Option Selector → Bool
  | none => true
  | some sel => matchesSelector o sel

/-- Modelled from the spec (§3, §4.2): the key of the cached grid metadata —
an axis-reference pair for xy traces, a subplot-container reference for
scene/polar-style traces, or its domain value for domain traces. -/
inductive ObjRef where
  | axes : String → String → ObjRef
  | container : String → ObjRef
  | domainOf : Val → ObjRef
deriving DecidableEq, Repr

/-- A logical grid position: (row, col, secondary-y flag) (spec §3). -/
structure GridPos where
  row : Nat
  col : Nat
  secY : Bool
deriving DecidableEq, Repr

/-- Modelled from the spec (§3): a figure owns an ordered sequence of traces
and, when built with explicit grid layout metadata, a cached map from object
reference to grid position. -/
structure Figure where
  data : List Val
  gridMap : Option (List (ObjRef × GridPos))
deriving DecidableEq

/-- Lookup in the cached reference → position map. -/
def refLookup (r : ObjRef) : List (ObjRef × GridPos) → Option GridPos
  | [] => none
  | (r', p) :: rest => if r' = r then some p else refLookup r rest

/-- Modelled from the spec (§4.2): the grid reference a trace resolves
through: its `xaxis`/`yaxis` axis-reference pair when present, otherwise its
subplot-container reference (`subplot` or `scene`), otherwise its domain. -/
def traceRef (t : Val) : Option ObjRef :=
  match lookupPath [Seg.name "xaxis"] t, lookupPath [Seg.name "yaxis"] t with
  | some (Val.s x), some (Val.s y) => some (ObjRef.axes x y)
  | _, _ =>
    match lookupPath [Seg.name "subplot"] t with
    | some (Val.s c) => some (ObjRef.container c)
    | _ =>
      match lookupPath [Seg.name "scene"] t with
      | some (Val.s c) => some (ObjRef.container c)
      | _ =>
        match lookupPath [Seg.name "domain"] t with
        | some d => some (ObjRef.domainOf d)
        | _ => none

/-- Modelled from the spec (§4.2): resolve the (row, col, secondary-y)
position of a trace via the cached grid metadata of the figure. -/
def resolvePos (fig : Figure) (t : Val) : Option GridPos :=
  match fig.gridMap with
  | none => none
  | some g =>
    match traceRef t with
    | some r => refLookup r g
    | none => none

/-- `none` filter value matches anything; `some x` requires exact equality. -/
def optEqNat : Option Nat → Nat → Bool
  | none, _ => true
  | some x, y => x = y

/-- `none` filter value matches anything; `some x` requires exact equality. -/
def optEqBool : Option Bool → Bool → Bool
  | none, _ => true
  | some x, y => x = y

/-- Modelled from the spec (§4.2, §7): the positional filter: when row, col
and secondary_y are all unspecified every object passes; otherwise the
position of the object must resolve (so a grid-less figure yields an empty result,
not an error) and each specified coordinate must match exactly. -/
def posOk (fig : Figure) (row col : Option Nat) (secY : Option Bool)
    (t : Val) : Bool :=
  if row.isNone && col.isNone && secY.isNone then true
  else
    match resolvePos fig t with
    | none => false
    | some p => optEqNat row p.row && optEqNat col p.col && optEqBool secY p.secY

/-- Modelled from the spec (§4.3): the complete per-object selection test:
positional filter AND selector match. -/
def keepTrace (fig : Figure) (sel : Option Selector) (row col : Option Nat)
    (secY : Option Bool) (t : Val) : Bool :=
  posOk fig row col secY t && matchesOpt t sel

/-- Modelled from the spec (§4.3): `select_traces`: iterate the trace
collection in original creation order and yield the objects passing all
filters. -/
def selectTraces (fig : Figure) (sel : Option Selector) (row col : Option Nat)
    (secY : Option Bool) : List Val :=
  fig.data.filter (keepTrace fig sel row col secY)

/-- Modelled from the spec (§4.3) and the generated method body
(`codegen/figure.py` lines 306–310): `for_each_trace`: apply `fn` to every
selected object in order (side effects modelled by explicit state threading)
and return the owning figure. -/
def forEachTrace {σ : Type} (fig : Figure) (fn : σ → Val → σ) (s0 : σ)
    (sel : Option Selector) (row col : Option Nat) (secY : Option Bool) :
    σ × Figure :=
  (fig.data.foldl
    (fun s t => if keepTrace fig sel row col secY t then fn s t else s) s0,
   fig)

/-- A key of a patch mapping: a string (property name, dotted path or
underscore-flattened path) or a numeric index (spec §3 "Patch"). -/
inductive PKey where
  | str : String → PKey
  | num : Nat → PKey
deriving DecidableEq, Repr

/-- A patch entry value: a plain value or a nested patch mapping (spec §3:
nested mapping / dotted-path / underscore-flattened forms). -/
inductive PatchVal where
  | v : Val → PatchVal
  | m : List (PKey × PatchVal) → PatchVal

/-- Canonical path segments contributed by one patch key. -/
def keySegs : PKey → List Seg
  | PKey.str s => tokenizePath s
  | PKey.num n => [Seg.idx n]

mutual

/-- Modelled from the spec (§4.3): flatten one patch entry value under the
path accumulated so far into (path, value) assignments. -/
def flattenPV : List Seg → PatchVal → List (List Seg × Val)
  | pre, PatchVal.v value => [(pre, value)]
  | pre, PatchVal.m entries => flattenEntries pre entries

/-- Flatten the entries of a patch mapping, in order, into assignments. -/
def flattenEntries : List Seg → List (PKey × PatchVal) → List (List Seg × Val)
  | _, [] => []
  | pre, (k, pv) :: rest =>
    flattenPV (pre ++ keySegs k) pv ++ flattenEntries pre rest

end

/-- Modelled from the spec (§3, §4.3): normalize a patch, in any of the three
syntaxes, into "a single canonical nested-assignment sequence" of
(path, value) assignments. -/
def normalizePatch (patch : List (PKey × PatchVal)) : List (List Seg × Val) :=
  flattenEntries [] patch

/-- Modelled from the spec (§4.3, §7): apply assignments in order; a failing
assignment (out-of-range index, non-container along the path) is an error and
nothing is rolled back. -/
def applyAssignments : Val → List (List Seg × Val) → Option Val
  | o, [] => some o
  | o, (p, v) :: rest =>
    match setPath p o v with
    | some o' => applyAssignments o' rest
    | none => none

/-- Modelled from the spec (§4.3): `obj.update(patch, **overrides)`:
normalize `patch` and `overrides` into a single ordered assignment list —
the overrides placed after (hence taking precedence over) the entries from
`patch` — and apply the assignments in order. -/
def updateObj (o : Val) (patch overrides : List (PKey × PatchVal)) : Option Val :=
  applyAssignments o (normalizePatch patch ++ normalizePatch overrides)

/-- Apply `updateObj` to every trace passing the keep test, leaving the other
traces untouched; an error on any object aborts the traversal. -/
def updateData (patch overrides : List (PKey × PatchVal)) (keep : Val → Bool) :
    List Val → Option (List Val)
  | [] => some []
  | t :: ts =>
    match (if keep t then updateObj t patch overrides else some t) with
    | some t' =>
      match updateData patch overrides keep ts with
      | some ts' => some (t' :: ts')
      | none => none
    | none => none

/-- Modelled from the spec (§4.3) and the generated method body
(`codegen/figure.py` lines 349–353): `update_traces`: for every selected
object perform the patch-and-overrides update, returning the owning figure. -/
def updateTraces (fig : Figure) (patch : List (PKey × PatchVal))
    (sel : Option Selector) (row col : Option Nat) (secY : Option Bool)
    (overrides : List (PKey × PatchVal)) : Option Figure :=
  match updateData patch overrides (keepTrace fig sel row col secY) fig.data with
  | some d => some { fig with data := d }
  | none => none

example : tokenizePath "marker.line.color" =
    [Seg.name "marker", Seg.name "line", Seg.name "color"] := by decide

example : tokenizePath "marker_line_color" =
    [Seg.name "marker", Seg.name "line", Seg.name "color"] := by decide

example : tokenizePath "dimensions[1].label" =
    [Seg.name "dimensions", Seg.idx 1, Seg.name "label"] := by decide

example : tokenizePath "dimensions_1_label" =
    [Seg.name "dimensions", Seg.idx 1, Seg.name "label"] := by decide

/-! ## The concrete 3×2 subplot scenario

The figure built by `TestSelectForEachUpdateTraces.setUp` in
`test_update_traces.py`: a 3×2 grid whose cell (1,2) is a scene, cell (2,1)
has a secondary y-axis, cell (2,2) is polar and cell (3,1) is a domain cell,
holding ten traces at known positions. -/

/-- Trace at index 0: scatter markers at cell (1,1). -/
def trace0 : Val :=
  Val.obj [("type", Val.s "scatter"), ("mode", Val.s "markers"),
    ("name", Val.s "A"),
    ("marker", Val.obj [("color", Val.s "green"), ("size", Val.i 10)]),
    ("xaxis", Val.s "x"), ("yaxis", Val.s "y")]

/-- Trace at index 1: bar at cell (1,1). -/
def trace1 : Val :=
  Val.obj [("type", Val.s "bar"), ("name", Val.s "B"),
    ("xaxis", Val.s "x"), ("yaxis", Val.s "y")]

/-- Trace at index 2: scatter lines at cell (2,1). -/
def trace2 : Val :=
  Val.obj [("type", Val.s "scatter"), ("mode", Val.s "lines"),
    ("name", Val.s "C"), ("line", Val.obj [("color", Val.s "purple")]),
    ("xaxis", Val.s "x2"), ("yaxis", Val.s "y2")]

/-- Trace at index 3: heatmap at cell (2,1). -/
def trace3 : Val :=
  Val.obj [("type", Val.s "heatmap"), ("name", Val.s "D"),
    ("xaxis", Val.s "x2"), ("yaxis", Val.s "y2")]

/-- Trace at index 4: scatter3d markers at cell (1,2). -/
def trace4 : Val :=
  Val.obj [("type", Val.s "scatter3d"), ("mode", Val.s "markers"),
    ("name", Val.s "E"),
    ("marker", Val.obj [("color", Val.s "green"), ("size", Val.i 10)]),
    ("scene", Val.s "scene")]

/-- Trace at index 5: scatter3d lines at cell (1,2). -/
def trace5 : Val :=
  Val.obj [("type", Val.s "scatter3d"), ("mode", Val.s "lines"),
    ("name", Val.s "F"),
    ("line", Val.obj [("color", Val.s "purple"), ("width", Val.i 4)]),
    ("scene", Val.s "scene")]

/-- Trace at index 6: scatterpolar markers at cell (2,2). -/
def trace6 : Val :=
  Val.obj [("type", Val.s "scatterpolar"), ("mode", Val.s "markers"),
    ("name", Val.s "G"),
    ("marker", Val.obj [("color", Val.s "green"), ("size", Val.i 8)]),
    ("subplot", Val.s "polar")]

/-- Trace at index 7: scatterpolar lines at cell (2,2). -/
def trace7 : Val :=
  Val.obj [("type", Val.s "scatterpolar"), ("mode", Val.s "lines"),
    ("name", Val.s "H"), ("subplot", Val.s "polar")]

/-- The domain value `make_subplots` assigns to the domain cell (3,1)
(an opaque token in this model). -/
def domRow3Col1 : Val :=
  Val.obj [("x", Val.arr [Val.i 0, Val.i 2]), ("y", Val.arr [Val.i 0, Val.i 1])]

/-- Trace at index 8: parcoords at the domain cell (3,1). -/
def trace8 : Val :=
  Val.obj [("type", Val.s "parcoords"), ("name", Val.s "I"),
    ("line", Val.obj [("color", Val.s "purple")]),
    ("dimensions", Val.arr
      [Val.obj [("values", Val.arr [Val.i 1, Val.i 2, Val.i 3])],
       Val.obj [("values", Val.arr [Val.i 3, Val.i 2, Val.i 1])]]),
    ("domain", domRow3Col1)]

/-- Trace at index 9: scatter lines at cell (2,1) on the secondary y-axis. -/
def trace9 : Val :=
  Val.obj [("type", Val.s "scatter"), ("mode", Val.s "lines"),
    ("name", Val.s "C"), ("line", Val.obj [("color", Val.s "purple")]),
    ("xaxis", Val.s "x2"), ("yaxis", Val.s "y3")]

/-- The cached grid metadata of the 3×2 scenario: reference → position, with
the secondary y-axis pair of cell (2,1) flagged. -/
def gridMap3x2 : List (ObjRef × GridPos) :=
  [(ObjRef.axes "x" "y", ⟨1, 1, false⟩),
   (ObjRef.container "scene", ⟨1, 2, false⟩),
   (ObjRef.axes "x2" "y2", ⟨2, 1, false⟩),
   (ObjRef.axes "x2" "y3", ⟨2, 1, true⟩),
   (ObjRef.container "polar", ⟨2, 2, false⟩),
   (ObjRef.domainOf domRow3Col1, ⟨3, 1, false⟩)]

/-- The ten traces of the scenario, in creation order. -/
def scenarioData : List Val :=
  [trace0, trace1, trace2, trace3, trace4, trace5, trace6, trace7, trace8,
   trace9]

/-- The scenario figure built with `make_subplots` (grid metadata present). -/
def figGrid : Figure :=
  { data := scenarioData, gridMap := some gridMap3x2 }

/-- The same figure rebuilt from its dict (`go.Figure(fig.to_dict())`): no
grid metadata. -/
def figNoGrid : Figure :=
  { data := scenarioData, gridMap := none }

example : selectTraces figGrid (some (Selector.map [("type", Val.s "scatter")]))
    none none none = [trace0, trace2, trace9] := by decide

example : selectTraces figGrid none (some 2) (some 1) none =
    [trace2, trace3, trace9] := by decide

example : selectTraces figGrid none (some 2) (some 1) (some true) =
    [trace9] := by decide

example : selectTraces figNoGrid
    (some (Selector.map [("marker", Val.obj [("color", Val.s "green")])]))
    none none none = [] := by decide

example : selectTraces figNoGrid
    (some (Selector.map [("marker.color", Val.s "green")]))
    none none none = [trace0, trace4, trace6] := by decide

example : selectTraces figNoGrid none (some 2) none none = [] := by decide

/-! ## Association-list and sequence lemmas -/

theorem assocLookup_assocSet_self (k : String) (v : Val) :
    ∀ kvs, assocLookup k (assocSet k v kvs) = some v
  | [] => by simp [assocSet, assocLookup]
  | (k', v') :: rest => by
    by_cases h : k' = k
    · simp [assocSet, h, assocLookup]
    · simp [assocSet, h, assocLookup, assocLookup_assocSet_self k v rest]

theorem assocLookup_assocSet_ne (k k' : String) (v : Val) (h : k ≠ k') :
    ∀ kvs, assocLookup k' (assocSet k v kvs) = assocLookup k' kvs
  | [] => by simp [assocSet, assocLookup, h]
  | (k'', v'') :: rest => by
    by_cases h2 : k'' = k
    · subst h2
      simp [assocSet, assocLookup, h]
    · simp [assocSet, h2, assocLookup, assocLookup_assocSet_ne k k' v h rest]

theorem assocSet_of_lookup (k : String) (v : Val) :
    ∀ kvs, assocLookup k kvs = some v → assocSet k v kvs = kvs
  | [] => by simp [assocLookup]
  | (k', v') :: rest => by
    by_cases h : k' = k
    · subst h
      simp [assocLookup, assocSet]
      intro h2
      exact h2.symm
    · simp [assocLookup, assocSet, h]
      exact assocSet_of_lookup k v rest

theorem assocSet_assocSet (k : String) (c d : Val) :
    ∀ kvs, assocSet k d (assocSet k c kvs) = assocSet k d kvs
  | [] => by simp [assocSet]
  | (k', v') :: rest => by
    by_cases h : k' = k
    · simp [assocSet, h]
    · simp [assocSet, h, assocSet_assocSet k c d rest]

theorem arrGet_set_self : ∀ (xs : List Val) (j : Nat) (c v : Val),
    xs[j]? = some c → (xs.set j v)[j]? = some v
  | [], _, _, _ => by simp
  | _ :: _, 0, _, _ => by simp
  | _ :: xs, j + 1, c, v => by
    simpa using arrGet_set_self xs j c v

theorem arrGet_set_ne : ∀ (xs : List Val) (m j : Nat) (v : Val), m ≠ j →
    (xs.set j v)[m]? = xs[m]?
  | [], _, _, _, _ => by simp
  | x :: xs, m, 0, v, h => by
    cases m with
    | zero => exact absurd rfl h
    | succ m => simp
  | x :: xs, m, j + 1, v, h => by
    cases m with
    | zero => simp
    | succ m => simpa using arrGet_set_ne xs m j v (by omega)

theorem arrSet_of_get : ∀ (xs : List Val) (j : Nat) (c : Val),
    xs[j]? = some c → xs.set j c = xs
  | [], _, _ => by simp
  | x :: xs, 0, c => by
    simp
    intro h
    simp [h]
  | x :: xs, j + 1, c => by
    simpa using arrSet_of_get xs j c

/-! ## Nested set/lookup lemmas -/

theorem lookupPath_setPath : ∀ (p : List Seg) (o v o' : Val),
    setPath p o v = some o' → lookupPath p o' = some v
  | [], o, v, o' => by
    simp [setPath, lookupPath]
    intro h
    simp [h.symm, lookupPath]
  | Seg.name k :: rest, o, v, o' => by
    cases o with
    | obj kvs =>
      simp only [setPath]
      cases hrec : setPath rest ((assocLookup k kvs).getD (Val.obj [])) v with
      | none => simp
      | some c =>
        simp only [Option.some.injEq]
        intro h
        subst h
        simp [lookupPath, assocLookup_assocSet_self,
          lookupPath_setPath rest _ v c hrec]
    | s a => simp [setPath]
    | i a => simp [setPath]
    | b a => simp [setPath]
    | arr a => simp [setPath]
  | Seg.idx j :: rest, o, v, o' => by
    cases o with
    | arr xs =>
      simp only [setPath]
      cases hget : xs[j]? with
      | none => simp
      | some c =>
        cases hrec : setPath rest c v with
        | none => simp [hrec]
        | some c' =>
          simp only [hrec, Option.some.injEq]
          intro h
          subst h
          simp [lookupPath, arrGet_set_self xs j c c' hget,
            lookupPath_setPath rest c v c' hrec]
    | s a => simp [setPath]
    | i a => simp [setPath]
    | b a => simp [setPath]
    | obj a => simp [setPath]

theorem setPath_of_lookupPath : ∀ (p : List Seg) (o v : Val),
    lookupPath p o = some v → setPath p o v = some o
  | [], o, v => by
    simp [lookupPath, setPath]
    intro h
    simp [h]
  | Seg.name k :: rest, o, v => by
    cases o with
    | obj kvs =>
      simp only [lookupPath]
      cases hl : assocLookup k kvs with
      | none => simp
      | some c =>
        intro h
        simp only [setPath, hl, Option.getD_some,
          setPath_of_lookupPath rest c v h]
        simp [assocSet_of_lookup k c kvs hl]
    | s a => simp [lookupPath]
    | i a => simp [lookupPath]
    | b a => simp [lookupPath]
    | arr a => simp [lookupPath]
  | Seg.idx j :: rest, o, v => by
    cases o with
    | arr xs =>
      simp only [lookupPath]
      cases hget : xs[j]? with
      | none => simp
      | some c =>
        intro h
        simp only [setPath, hget, setPath_of_lookupPath rest c v h]
        simp [arrSet_of_get xs j c hget]
    | s a => simp [lookupPath]
    | i a => simp [lookupPath]
    | b a => simp [lookupPath]
    | obj a => simp [lookupPath]

/-- Setting a path twice: the second write wins regardless of the first
written value (assignments are absolute value sets). -/
theorem setPath_setPath (w : Val) : ∀ (p : List Seg) (o v o' : Val),
    setPath p o v = some o' → setPath p o' w = setPath p o w
  | [], o, v, o' => by simp [setPath]
  | Seg.name k :: rest, o, v, o' => by
    cases o with
    | obj kvs =>
      simp only [setPath]
      cases hrec : setPath rest ((assocLookup k kvs).getD (Val.obj [])) v with
      | none => simp
      | some c =>
        simp only [Option.some.injEq]
        intro h
        subst h
        simp only [setPath, assocLookup_assocSet_self, Option.getD_some,
          setPath_setPath w rest _ v c hrec]
        cases setPath rest ((assocLookup k kvs).getD (Val.obj [])) w with
        | none => simp
        | some d => simp [assocSet_assocSet]
    | s a => simp [setPath]
    | i a => simp [setPath]
    | b a => simp [setPath]
    | arr a => simp [setPath]
  | Seg.idx j :: rest, o, v, o' => by
    cases o with
    | arr xs =>
      simp only [setPath]
      cases hget : xs[j]? with
      | none => simp
      | some c =>
        cases hrec : setPath rest c v with
        | none => simp [hrec]
        | some c' =>
          simp only [hrec, Option.some.injEq]
          intro h
          subst h
          simp only [setPath, arrGet_set_self xs j c c' hget,
            setPath_setPath w rest c v c' hrec]
          cases setPath rest c w with
          | none => simp
          | some d => simp [List.set_set]
    | s a => simp [setPath]
    | i a => simp [setPath]
    | b a => simp [setPath]
    | obj a => simp [setPath]

/-- Two canonical paths diverge when they differ at some segment position
reached by both: neither is then a prefix of the other, and assignments to
them touch disjoint parts of the property tree. -/
def Diverge : List Seg → List Seg → Bool
  | s :: p, t :: q => if s = t then Diverge p q else true
  | _, _ => false

theorem lookupPath_cons_objnil (s : Seg) (p : List Seg) :
    lookupPath (s :: p) (Val.obj []) = none := by
  cases s with
  | name k => simp [lookupPath, assocLookup]
  | idx j => simp [lookupPath]

/-- An assignment along a path divergent from `p` cannot change what `p`
resolves to. -/
theorem lookupPath_setPath_diverge : ∀ (p q : List Seg) (o w o' : Val),
    Diverge p q = true → setPath q o w = some o' →
    lookupPath p o' = lookupPath p o
  | [], _, o, w, o' => by simp [Diverge]
  | _ :: _, [], o, w, o' => by simp [Diverge]
  | s :: p', t :: q', o, w, o' => by
    intro hdiv hset
    by_cases hst : s = t
    · subst hst
      simp only [Diverge, if_pos rfl] at hdiv
      cases s with
      | name k =>
        cases o with
        | obj kvs =>
          simp only [setPath] at hset
          cases hrec : setPath q' ((assocLookup k kvs).getD (Val.obj [])) w with
          | none => simp [hrec] at hset
          | some c =>
            simp only [hrec, Option.some.injEq] at hset
            subst hset
            simp only [lookupPath, assocLookup_assocSet_self]
            cases hl : assocLookup k kvs with
            | none =>
              simp only [hl, Option.getD_none] at hrec
              cases p' with
              | nil => simp [Diverge] at hdiv
              | cons s2 p2 =>
                rw [lookupPath_setPath_diverge _ q' _ w c hdiv hrec]
                simp [lookupPath_cons_objnil]
            | some cur =>
              simp only [hl, Option.getD_some] at hrec
              rw [lookupPath_setPath_diverge p' q' cur w c hdiv hrec]
        | s a => simp [setPath] at hset
        | i a => simp [setPath] at hset
        | b a => simp [setPath] at hset
        | arr a => simp [setPath] at hset
      | idx j =>
        cases o with
        | arr xs =>
          simp only [setPath] at hset
          cases hget : xs[j]? with
          | none => simp [hget] at hset
          | some cur =>
            simp only [hget] at hset
            cases hrec : setPath q' cur w with
            | none => simp [hrec] at hset
            | some c =>
              simp only [hrec, Option.some.injEq] at hset
              subst hset
              simp only [lookupPath, arrGet_set_self xs j cur c hget, hget]
              rw [lookupPath_setPath_diverge p' q' cur w c hdiv hrec]
        | s a => simp [setPath] at hset
        | i a => simp [setPath] at hset
        | b a => simp [setPath] at hset
        | obj a => simp [setPath] at hset
    · cases t with
      | name k' =>
        cases o with
        | obj kvs =>
          simp only [setPath] at hset
          cases hrec : setPath q' ((assocLookup k' kvs).getD (Val.obj [])) w with
          | none => simp [hrec] at hset
          | some c =>
            simp only [hrec, Option.some.injEq] at hset
            subst hset
            cases s with
            | name k =>
              have hk : k' ≠ k := fun hh => hst (by rw [hh])
              simp only [lookupPath, assocLookup_assocSet_ne k' k c hk]
            | idx m => simp [lookupPath]
        | s a => simp [setPath] at hset
        | i a => simp [setPath] at hset
        | b a => simp [setPath] at hset
        | arr a => simp [setPath] at hset
      | idx j =>
        cases o with
        | arr xs =>
          simp only [setPath] at hset
          cases hget : xs[j]? with
          | none => simp [hget] at hset
          | some cur =>
            simp only [hget] at hset
            cases hrec : setPath q' cur w with
            | none => simp [hrec] at hset
            | some c =>
              simp only [hrec, Option.some.injEq] at hset
              subst hset
              cases s with
              | name k => simp [lookupPath]
              | idx m =>
                have hm : m ≠ j := fun hh => hst (by rw [hh])
                simp only [lookupPath, arrGet_set_ne xs m j c hm]
        | s a => simp [setPath] at hset
        | i a => simp [setPath] at hset
        | b a => simp [setPath] at hset
        | obj a => simp [setPath] at hset

theorem lookupPath_applyAssignments_diverge :
    ∀ (L : List (List Seg × Val)) (o o₁ : Val) (p : List Seg),
      (∀ a ∈ L, Diverge p a.1 = true) → applyAssignments o L = some o₁ →
      lookupPath p o₁ = lookupPath p o
  | [], o, o₁, p => by
    simp only [applyAssignments, Option.some.injEq]
    intro _ h
    rw [h]
  | (q, w) :: M, o, o₁, p => by
    intro hdiv happ
    simp only [applyAssignments] at happ
    cases hset : setPath q o w with
    | none => simp [hset] at happ
    | some a =>
      simp only [hset] at happ
      rw [lookupPath_applyAssignments_diverge M a o₁ p
        (fun x hx => hdiv x (List.mem_cons_of_mem _ hx)) happ]
      exact lookupPath_setPath_diverge p q o w a
        (hdiv (q, w) (List.mem_cons_self _ _)) hset

theorem applyAssignments_idem :
    ∀ (L : List (List Seg × Val)) (o o₁ : Val),
      L.Pairwise (fun a c => Diverge a.1 c.1 = true) →
      applyAssignments o L = some o₁ → applyAssignments o₁ L = some o₁
  | [], o, o₁ => by
    intro _ _
    rfl
  | (p, v) :: M, o, o₁ => by
    intro hpw happ
    have hhead : ∀ x ∈ M, Diverge p x.1 = true :=
      fun x hx => (List.pairwise_cons.mp hpw).1 x hx
    simp only [applyAssignments] at happ ⊢
    cases hset : setPath p o v with
    | none => simp [hset] at happ
    | some a =>
      simp only [hset] at happ
      have h1 : lookupPath p o₁ = some v := by
        rw [lookupPath_applyAssignments_diverge M a o₁ p hhead happ]
        exact lookupPath_setPath p o v a hset
      simp only [setPath_of_lookupPath p o₁ v h1]
      exact applyAssignments_idem M a o₁ (List.pairwise_cons.mp hpw).2 happ

/-! ## Round-trip of the dotted and underscore key renderings -/

theorem splitCsAux_nonsep : ∀ (tok rest acc : List Char),
    (∀ c ∈ tok, isSep c = false) →
    splitCsAux (tok ++ rest) acc = splitCsAux rest (tok.reverse ++ acc)
  | [], rest, acc, _ => by simp
  | c :: tok', rest, acc, h => by
    have hc : isSep c = false := h c (List.mem_cons_self _ _)
    calc splitCsAux (c :: tok' ++ rest) acc
        = splitCsAux (tok' ++ rest) (c :: acc) := by
          simp [splitCsAux, hc]
      _ = splitCsAux rest (tok'.reverse ++ (c :: acc)) :=
          splitCsAux_nonsep tok' rest (c :: acc)
            (fun x hx => h x (List.mem_cons_of_mem _ hx))
      _ = splitCsAux rest ((c :: tok').reverse ++ acc) := by simp

/-- Does the remaining input begin with a separator (or end)? -/
def startsSepOrNil : List Char → Prop
  | [] => True
  | c :: _ => isSep c = true

theorem splitCsAux_flush (rest acc : List Char) (hacc : acc ≠ [])
    (hrest : startsSepOrNil rest) :
    splitCsAux rest acc = acc.reverse :: splitCs rest := by
  cases rest with
  | nil => simp [splitCsAux, splitCs, hacc]
  | cons c cs =>
    have hc : isSep c = true := hrest
    simp [splitCsAux, splitCs, hc, hacc]

theorem splitCs_token (tok rest : List Char) (h1 : tok ≠ [])
    (h2 : ∀ c ∈ tok, isSep c = false) (h3 : startsSepOrNil rest) :
    splitCs (tok ++ rest) = tok :: splitCs rest := by
  unfold splitCs
  rw [splitCsAux_nonsep tok rest [] h2, List.append_nil]
  rw [splitCsAux_flush rest tok.reverse (by simpa using h1) h3]
  simp [splitCs]

theorem splitCs_sep (c : Char) (cs : List Char) (h : isSep c = true) :
    splitCs (c :: cs) = splitCs cs := by
  simp [splitCs, splitCsAux, h]

theorem digitCh_isDigit (n : Nat) (h : n < 10) : isDigitCh (digitCh n) = true := by
  interval_cases n <;> decide

theorem digitVal_digitCh (n : Nat) (h : n < 10) : digitVal (digitCh n) = n := by
  interval_cases n <;> decide

theorem digit_not_sep (c : Char) (h : isDigitCh c = true) : isSep c = false := by
  by_cases h1 : c = '.'
  · subst h1; exact absurd h (by decide)
  by_cases h2 : c = '_'
  · subst h2; exact absurd h (by decide)
  by_cases h3 : c = '['
  · subst h3; exact absurd h (by decide)
  by_cases h4 : c = ']'
  · subst h4; exact absurd h (by decide)
  simp [isSep, h1, h2, h3, h4]

theorem charsToNatAux_append (xs : List Char) : ∀ (acc : Nat) (ys : List Char),
    charsToNatAux acc (xs ++ ys) = charsToNatAux (charsToNatAux acc xs) ys := by
  induction xs with
  | nil => intro acc ys; rfl
  | cons c cs ih => intro acc ys; exact ih (acc * 10 + digitVal c) ys

theorem charsToNatAux_nil (acc : Nat) : charsToNatAux acc [] = acc := rfl

theorem charsToNatAux_cons (acc : Nat) (c : Char) (cs : List Char) :
    charsToNatAux acc (c :: cs) = charsToNatAux (acc * 10 + digitVal c) cs := rfl

theorem natCharsAux_succ (fuel n : Nat) :
    natCharsAux (fuel + 1) n =
      if n < 10 then [digitCh n]
      else natCharsAux fuel (n / 10) ++ [digitCh (n % 10)] := rfl

theorem charsToNatAux_natCharsAux : ∀ (fuel n acc : Nat), n < fuel →
    charsToNatAux acc (natCharsAux fuel n) =
      acc * 10 ^ (natCharsAux fuel n).length + n
  | 0, n, acc => by omega
  | fuel + 1, n, acc => by
    intro hfuel
    by_cases h : n < 10
    · rw [natCharsAux_succ, if_pos h]
      rw [charsToNatAux_cons, charsToNatAux_nil, digitVal_digitCh n h]
      simp
    · have hdiv : n / 10 < fuel := by
        have h1 : 0 < n := by omega
        have := Nat.div_lt_self h1 (by omega : 1 < 10)
        omega
      rw [natCharsAux_succ, if_neg h]
      rw [charsToNatAux_append]
      rw [charsToNatAux_natCharsAux fuel (n / 10) acc hdiv]
      rw [charsToNatAux_cons, charsToNatAux_nil,
        digitVal_digitCh (n % 10) (Nat.mod_lt n (by omega))]
      simp only [List.length_append, List.length_singleton]
      rw [pow_succ]
      generalize (10 : Nat) ^ (natCharsAux fuel (n / 10)).length = M
      have := Nat.div_add_mod n 10
      ring_nf
      omega

theorem charsToNat_natChars (n : Nat) : charsToNat (natChars n) = n := by
  have h := charsToNatAux_natCharsAux (n + 1) n 0 (by omega)
  simpa [charsToNat, natChars] using h

theorem natChars_ne_nil (n : Nat) : natChars n ≠ [] := by
  unfold natChars natCharsAux
  by_cases h : n < 10 <;> simp [h]

theorem natChars_digits : ∀ (fuel n : Nat) (c : Char),
    c ∈ natCharsAux fuel n → isDigitCh c = true
  | 0, n, c => by simp [natCharsAux]
  | fuel + 1, n, c => by
    by_cases h : n < 10
    · simp only [natCharsAux, h, if_true, List.mem_singleton]
      intro hc
      rw [hc]
      exact digitCh_isDigit n h
    · simp only [natCharsAux, h, if_false, List.mem_append, List.mem_singleton]
      rintro (hc | hc)
      · exact natChars_digits fuel (n / 10) c hc
      · rw [hc]
        exact digitCh_isDigit (n % 10) (Nat.mod_lt n (by omega))

theorem natChars_not_sep (n : Nat) (c : Char) (hc : c ∈ natChars n) :
    isSep c = false :=
  digit_not_sep c (natChars_digits (n + 1) n c hc)

theorem tokOf_natChars (j : Nat) : tokOf (natChars j) = Seg.idx j := by
  unfold tokOf
  rw [if_pos, charsToNat_natChars]
  exact List.all_eq_true.mpr (fun c hc => natChars_digits (j + 1) j c hc)

/-- A property name representable in the dotted / underscore key syntaxes:
nonempty, free of the separator characters, and not all digits (an all-digit
token reads back as a numeric index). -/
def ValidName (n : String) : Prop :=
  n.data ≠ [] ∧ (∀ c ∈ n.data, isSep c = false) ∧ n.data.all isDigitCh = false

instance : DecidablePred ValidName := fun _ =>
  inferInstanceAs (Decidable (_ ∧ _ ∧ _))

/-- A canonical path segment representable in the three patch syntaxes. -/
def ValidSeg : Seg → Prop
  | Seg.name n => ValidName n
  | Seg.idx _ => True

instance : DecidablePred ValidSeg := fun s =>
  match s with
  | Seg.name n => inferInstanceAs (Decidable (ValidName n))
  | Seg.idx _ => inferInstanceAs (Decidable True)

/-- A canonical property path representable in the three patch syntaxes. -/
def ValidPath (p : List Seg) : Prop :=
  p ≠ [] ∧ ∀ s ∈ p, ValidSeg s

instance : DecidablePred ValidPath := fun _ =>
  inferInstanceAs (Decidable (_ ∧ _))

theorem tokOf_name (n : String) (hv : ValidName n) : tokOf n.data = Seg.name n := by
  simp [tokOf, hv.2.2]

/-- Dotted-syntax rendering of one non-leading segment (`.name` / `[idx]`). -/
def dseg : Seg → List Char
  | Seg.name n => '.' :: n.data
  | Seg.idx j => '[' :: (natChars j ++ [']'])

/-- Underscore-syntax rendering of one non-leading segment. -/
def useg : Seg → List Char
  | Seg.name n => '_' :: n.data
  | Seg.idx j => '_' :: natChars j

/-- Dotted rendering of all segments after the first. -/
def dottedTail : List Seg → List Char
  | [] => []
  | s :: rest => dseg s ++ dottedTail rest

/-- Underscore rendering of all segments after the first. -/
def underTail : List Seg → List Char
  | [] => []
  | s :: rest => useg s ++ underTail rest

/-- The dotted-path string key of a canonical path, e.g.
`marker.line.color`, `dimensions[1].label`. -/
def dottedKeyChars : List Seg → List Char
  | [] => []
  | Seg.name n :: rest => n.data ++ dottedTail rest
  | Seg.idx j :: rest => '[' :: (natChars j ++ [']']) ++ dottedTail rest

/-- The underscore-flattened string key of a canonical path, e.g.
`marker_line_color`, `dimensions_1_label`. -/
def underscoreKeyChars : List Seg → List Char
  | [] => []
  | Seg.name n :: rest => n.data ++ underTail rest
  | Seg.idx j :: rest => natChars j ++ underTail rest

theorem startsSep_dottedTail : ∀ p, startsSepOrNil (dottedTail p)
  | [] => trivial
  | Seg.name n :: rest => by
    show isSep '.' = true
    decide
  | Seg.idx j :: rest => by
    show isSep '[' = true
    decide

theorem startsSep_underTail : ∀ p, startsSepOrNil (underTail p)
  | [] => trivial
  | Seg.name n :: rest => by
    show isSep '_' = true
    decide
  | Seg.idx j :: rest => by
    show isSep '_' = true
    decide

theorem tokenize_dottedTail : ∀ p, (∀ s ∈ p, ValidSeg s) →
    (splitCs (dottedTail p)).map tokOf = p
  | [], _ => by simp [dottedTail, splitCs, splitCsAux]
  | Seg.name n :: rest, h => by
    have hv : ValidName n := h (Seg.name n) (List.mem_cons_self _ _)
    have hstep : dottedTail (Seg.name n :: rest) =
        '.' :: (n.data ++ dottedTail rest) := by
      simp [dottedTail, dseg]
    rw [hstep, splitCs_sep '.' _ (by decide),
      splitCs_token n.data _ hv.1 hv.2.1 (startsSep_dottedTail rest),
      List.map_cons, tokOf_name n hv,
      tokenize_dottedTail rest (fun s hs => h s (List.mem_cons_of_mem _ hs))]
  | Seg.idx j :: rest, h => by
    have hstep : dottedTail (Seg.idx j :: rest) =
        '[' :: (natChars j ++ (']' :: dottedTail rest)) := by
      simp [dottedTail, dseg]
    rw [hstep, splitCs_sep '[' _ (by decide),
      splitCs_token (natChars j) _ (natChars_ne_nil j) (natChars_not_sep j)
        (by show isSep ']' = true; decide),
      splitCs_sep ']' _ (by decide),
      List.map_cons, tokOf_natChars j,
      tokenize_dottedTail rest (fun s hs => h s (List.mem_cons_of_mem _ hs))]

theorem tokenize_underTail : ∀ p, (∀ s ∈ p, ValidSeg s) →
    (splitCs (underTail p)).map tokOf = p
  | [], _ => by simp [underTail, splitCs, splitCsAux]
  | Seg.name n :: rest, h => by
    have hv : ValidName n := h (Seg.name n) (List.mem_cons_self _ _)
    have hstep : underTail (Seg.name n :: rest) =
        '_' :: (n.data ++ underTail rest) := by
      simp [underTail, useg]
    rw [hstep, splitCs_sep '_' _ (by decide),
      splitCs_token n.data _ hv.1 hv.2.1 (startsSep_underTail rest),
      List.map_cons, tokOf_name n hv,
      tokenize_underTail rest (fun s hs => h s (List.mem_cons_of_mem _ hs))]
  | Seg.idx j :: rest, h => by
    have hstep : underTail (Seg.idx j :: rest) =
        '_' :: (natChars j ++ underTail rest) := by
      simp [underTail, useg]
    rw [hstep, splitCs_sep '_' _ (by decide),
      splitCs_token (natChars j) _ (natChars_ne_nil j) (natChars_not_sep j)
        (startsSep_underTail rest),
      List.map_cons, tokOf_natChars j,
      tokenize_underTail rest (fun s hs => h s (List.mem_cons_of_mem _ hs))]

theorem tokenizeChars_dottedKey (p : List Seg) (hp : ValidPath p) :
    tokenizeChars (dottedKeyChars p) = p := by
  obtain ⟨hne, hsegs⟩ := hp
  cases p with
  | nil => exact absurd rfl hne
  | cons s rest =>
    cases s with
    | name n =>
      have hv : ValidName n := hsegs (Seg.name n) (List.mem_cons_self _ _)
      show ((splitCs (n.data ++ dottedTail rest)).map tokOf) = _
      rw [splitCs_token n.data _ hv.1 hv.2.1 (startsSep_dottedTail rest),
        List.map_cons, tokOf_name n hv,
        tokenize_dottedTail rest (fun s hs => hsegs s (List.mem_cons_of_mem _ hs))]
    | idx j =>
      have hstep : dottedKeyChars (Seg.idx j :: rest) =
          '[' :: (natChars j ++ (']' :: dottedTail rest)) := by
        simp [dottedKeyChars]
      show (splitCs (dottedKeyChars (Seg.idx j :: rest))).map tokOf = _
      rw [hstep, splitCs_sep '[' _ (by decide),
        splitCs_token (natChars j) _ (natChars_ne_nil j) (natChars_not_sep j)
          (by show isSep ']' = true; decide),
        splitCs_sep ']' _ (by decide),
        List.map_cons, tokOf_natChars j,
        tokenize_dottedTail rest (fun s hs => hsegs s (List.mem_cons_of_mem _ hs))]

theorem tokenizeChars_underscoreKey (p : List Seg) (hp : ValidPath p) :
    tokenizeChars (underscoreKeyChars p) = p := by
  obtain ⟨hne, hsegs⟩ := hp
  cases p with
  | nil => exact absurd rfl hne
  | cons s rest =>
    cases s with
    | name n =>
      have hv : ValidName n := hsegs (Seg.name n) (List.mem_cons_self _ _)
      show ((splitCs (n.data ++ underTail rest)).map tokOf) = _
      rw [splitCs_token n.data _ hv.1 hv.2.1 (startsSep_underTail rest),
        List.map_cons, tokOf_name n hv,
        tokenize_underTail rest (fun s hs => hsegs s (List.mem_cons_of_mem _ hs))]
    | idx j =>
      show ((splitCs (natChars j ++ underTail rest)).map tokOf) = _
      rw [splitCs_token (natChars j) _ (natChars_ne_nil j) (natChars_not_sep j)
          (startsSep_underTail rest),
        List.map_cons, tokOf_natChars j,
        tokenize_underTail rest (fun s hs => hsegs s (List.mem_cons_of_mem _ hs))]

theorem flattenPV_v (pre : List Seg) (value : Val) :
    flattenPV pre (PatchVal.v value) = [(pre, value)] := rfl

theorem flattenPV_m (pre : List Seg) (entries : List (PKey × PatchVal)) :
    flattenPV pre (PatchVal.m entries) = flattenEntries pre entries := rfl

theorem flattenEntries_nil (pre : List Seg) : flattenEntries pre [] = [] := rfl

theorem flattenEntries_cons (pre : List Seg) (k : PKey) (pv : PatchVal)
    (rest : List (PKey × PatchVal)) :
    flattenEntries pre ((k, pv) :: rest) =
      flattenPV (pre ++ keySegs k) pv ++ flattenEntries pre rest := rfl

/-- The patch-mapping key encoding one canonical segment. -/
def pkeyOf : Seg → PKey
  | Seg.name n => PKey.str n
  | Seg.idx j => PKey.num j

/-- The nested-mapping form of a single-path assignment: one singleton
mapping per remaining segment, ending in the plain value. -/
def nestedChain : List Seg → Val → PatchVal
  | [], v => PatchVal.v v
  | s :: rest, v => PatchVal.m [(pkeyOf s, nestedChain rest v)]

/-- A list of assignments rendered as a dotted-string-key patch. -/
def dottedPatch (asgs : List (List Seg × Val)) : List (PKey × PatchVal) :=
  asgs.map (fun a => (PKey.str (String.mk (dottedKeyChars a.1)), PatchVal.v a.2))

/-- A list of assignments rendered as an underscore-flattened-key patch. -/
def underscorePatch (asgs : List (List Seg × Val)) : List (PKey × PatchVal) :=
  asgs.map (fun a =>
    (PKey.str (String.mk (underscoreKeyChars a.1)), PatchVal.v a.2))

/-- A list of assignments rendered as a nested-mapping patch (one nested
chain per assignment). -/
def nestedPatch (asgs : List (List Seg × Val)) : List (PKey × PatchVal) :=
  asgs.map (fun a =>
    match a.1 with
    | [] => (PKey.str "", PatchVal.v a.2)
    | s :: rest => (pkeyOf s, nestedChain rest a.2))

theorem keySegs_pkeyOf (s : Seg) (hv : ValidSeg s) : keySegs (pkeyOf s) = [s] := by
  cases s with
  | name n =>
    have hvn : ValidName n := hv
    show tokenizePath n = [Seg.name n]
    unfold tokenizePath tokenizeChars
    have h0 : n.data = n.data ++ [] := by simp
    rw [h0, splitCs_token n.data [] hvn.1 hvn.2.1 trivial]
    simp [splitCs, splitCsAux, tokOf_name n hvn]
  | idx j => rfl

theorem flattenPV_nestedChain : ∀ (rest pre : List Seg) (v : Val),
    (∀ s ∈ rest, ValidSeg s) →
    flattenPV pre (nestedChain rest v) = [(pre ++ rest, v)]
  | [], pre, v, _ => by simp [nestedChain, flattenPV_v]
  | s :: rest, pre, v, h => by
    rw [nestedChain, flattenPV_m, flattenEntries_cons, flattenEntries_nil,
      keySegs_pkeyOf s (h s (List.mem_cons_self _ _)),
      flattenPV_nestedChain rest _ v (fun x hx => h x (List.mem_cons_of_mem _ hx))]
    simp

theorem normalizePatch_dotted : ∀ asgs : List (List Seg × Val),
    (∀ a ∈ asgs, ValidPath a.1) → normalizePatch (dottedPatch asgs) = asgs
  | [], _ => rfl
  | (p, v) :: rest, h => by
    have hv : ValidPath p := h (p, v) (List.mem_cons_self _ _)
    show flattenEntries [] (dottedPatch ((p, v) :: rest)) = _
    rw [show dottedPatch ((p, v) :: rest) =
        (PKey.str (String.mk (dottedKeyChars p)), PatchVal.v v) ::
          dottedPatch rest from rfl,
      flattenEntries_cons, flattenPV_v]
    have hk : keySegs (PKey.str (String.mk (dottedKeyChars p))) = p := by
      show tokenizePath (String.mk (dottedKeyChars p)) = p
      unfold tokenizePath
      exact tokenizeChars_dottedKey p hv
    rw [hk]
    have ih := normalizePatch_dotted rest (fun a ha => h a (List.mem_cons_of_mem _ ha))
    unfold normalizePatch at ih
    rw [ih]
    simp

theorem normalizePatch_underscore : ∀ asgs : List (List Seg × Val),
    (∀ a ∈ asgs, ValidPath a.1) → normalizePatch (underscorePatch asgs) = asgs
  | [], _ => rfl
  | (p, v) :: rest, h => by
    have hv : ValidPath p := h (p, v) (List.mem_cons_self _ _)
    show flattenEntries [] (underscorePatch ((p, v) :: rest)) = _
    rw [show underscorePatch ((p, v) :: rest) =
        (PKey.str (String.mk (underscoreKeyChars p)), PatchVal.v v) ::
          underscorePatch rest from rfl,
      flattenEntries_cons, flattenPV_v]
    have hk : keySegs (PKey.str (String.mk (underscoreKeyChars p))) = p := by
      show tokenizePath (String.mk (underscoreKeyChars p)) = p
      unfold tokenizePath
      exact tokenizeChars_underscoreKey p hv
    rw [hk]
    have ih := normalizePatch_underscore rest
      (fun a ha => h a (List.mem_cons_of_mem _ ha))
    unfold normalizePatch at ih
    rw [ih]
    simp

theorem normalizePatch_nested : ∀ asgs : List (List Seg × Val),
    (∀ a ∈ asgs, ValidPath a.1) → normalizePatch (nestedPatch asgs) = asgs
  | [], _ => rfl
  | (p, v) :: rest, h => by
    have hv : ValidPath p := h (p, v) (List.mem_cons_self _ _)
    cases p with
    | nil => exact absurd rfl hv.1
    | cons s tail =>
      show flattenEntries [] (nestedPatch ((s :: tail, v) :: rest)) = _
      rw [show nestedPatch ((s :: tail, v) :: rest) =
          (pkeyOf s, nestedChain tail v) :: nestedPatch rest from rfl,
        flattenEntries_cons,
        keySegs_pkeyOf s (hv.2 s (List.mem_cons_self _ _)),
        flattenPV_nestedChain tail ([] ++ [s]) v (fun x hx =>
          hv.2 x (List.mem_cons_of_mem _ hx))]
      have ih := normalizePatch_nested rest
        (fun a ha => h a (List.mem_cons_of_mem _ ha))
      unfold normalizePatch at ih
      rw [ih]
      simp

/-! ## Embedding of `codegen/figure.py` -/

/-- `codegen/figure.py` lines 224–225: the signature fragment appended to the
generated subplot methods — present exactly for the y-axis family. -/
def secondaryY1 (singular : String) : String :=
  if singular = "yaxis" then ", secondary_y=None" else ""

/-- `codegen/figure.py` lines 224–226: the argument fragment threaded to the
underlying selection call — present exactly for the y-axis family. -/
def secondaryY2 (singular : String) : String :=
  if singular = "yaxis" then ", secondary_y=secondary_y" else ""

/-- The parameters of the generated `select_<plural>` method
(`codegen/figure.py` lines 248–249), as a token list. -/
def selectSubplotParams (singular : String) : List String :=
  ["self", "selector=None", "row=None", "col=None"] ++
    (if singular = "yaxis" then ["secondary_y=None"] else [])

/-- The parameters of the generated `for_each_<singular>` method
(`codegen/figure.py` lines 279–280), as a token list. -/
def forEachSubplotParams (singular : String) : List String :=
  ["self", "fn", "selector=None", "row=None", "col=None"] ++
    (if singular = "yaxis" then ["secondary_y=None"] else [])

/-- The parameters of the generated `update_<plural>` method
(`codegen/figure.py` lines 312–317), as a token list. -/
def updateSubplotParams (singular : String) : List String :=
  ["self", "patch=None", "selector=None", "row=None", "col=None"] ++
    (if singular = "yaxis" then ["secondary_y=None"] else []) ++ ["**kwargs"]

/-- The arguments the generated select method passes to the underlying
layout-subplot selection call (`codegen/figure.py` lines 276–277); the first
argument is the singular family name (a Python string literal in the emitted
code). -/
def selectSubplotCallArgs (singular : String) : List String :=
  [singular, "selector", "row", "col"] ++
    (if singular = "yaxis" then ["secondary_y=secondary_y"] else [])

/-- Abstract view of one trace-type schema node consumed by the generator:
its plotly name, its datatype class name, and its child property names
(`trace_node.child_compound_datatypes` elements in `codegen/figure.py`). -/
structure TraceNode where
  plotlyName : String
  datatypeClass : String
  childProps : List String
deriving DecidableEq, Repr

/-- `codegen/figure.py` lines 125–127: a trace type gets the `secondary_y`
machinery exactly when it has a `yaxis` child property. -/
def includeSecondaryY (t : TraceNode) : Bool :=
  t.childProps.any (fun d => d = "yaxis")

/-- `codegen/figure.py` lines 146–177: the extra docstring entries of a
generated `add_*` method (row, col and — when the type has a yaxis —
secondary_y). -/
def docExtras (t : TraceNode) : List (String × String) :=
  [("row : int or None (default)",
    "Subplot row index (starting from 1) for the trace to be added. Only valid if figure was created using `plotly.tools.make_subplots`"),
   ("col : int or None (default)",
    "Subplot col index (starting from 1) for the trace to be added. Only valid if figure was created using `plotly.tools.make_subplots`")] ++
  (if includeSecondaryY t then
    [("secondary_y: boolean or None (default None)",
      "            If True, associate this trace with the secondary y-axis of the\n            subplot at the specified row and col. Only valid if all of the\n            following conditions are satisfied:\n              * The figure was created using `plotly.subplots.make_subplots`.\n              * The row and col arguments are not None\n              * The subplot at the specified row and col has type xy\n                (which is the default) and secondary_y True.  These\n                properties are specified in the specs argument to\n                make_subplots. See the make_subplots docstring for more info.")]
   else [])

/-- `codegen/figure.py` lines 129–141: the signature of a generated `add_*`
method; `addParams` abstracts the external `add_constructor_params` helper. -/
def addTraceSig (addParams : List String → List String → String)
    (t : TraceNode) : String :=
  "\n    def add_" ++ t.plotlyName ++ "(self" ++
    addParams t.childProps
      (["row", "col"] ++ (if includeSecondaryY t then ["secondary_y"] else []))

/-- `codegen/figure.py` lines 187–215: the body of a generated `add_*`
method: construct the new trace from the child properties and delegate to
`add_trace` with the positional arguments. -/
def addTraceBody (t : TraceNode) : String :=
  "\n        new_trace = " ++ t.datatypeClass ++ "(\n        " ++
    String.join (t.childProps.map (fun p => "\n                " ++ p ++ "=" ++ p ++ ",")) ++
    "\n            **kwargs)" ++
    "\n        return self.add_trace(\n            new_trace, row=row, col=col" ++
    (if includeSecondaryY t then ", secondary_y=secondary_y" else "") ++ ")"

/-- `codegen/figure.py` lines 227–239: the secondary-y docstring block of the
generated subplot methods — present exactly for the y-axis family. -/
def secondaryYDocstring (singular : String) : String :=
  if singular = "yaxis" then
    "\n        secondary_y: boolean or None (default None)\n            * If True, only select yaxis objects associated with the secondary\n              y-axis of the subplot.\n            * If False, only select yaxis objects associated with the primary\n              y-axis of the subplot.\n            * If None (the default), do not filter yaxis objects based on\n              a secondary y-axis condition. \n            \n            To select yaxis objects by secondary y-axis, the Figure must\n            have been created using plotly.subplots.make_subplots. See\n            the docstring for the specs argument to make_subplots for more\n            info on creating subplots with secondary y-axes."
  else ""

/-- The shared selector/row-col docstring fragment of the generated subplot
methods (`codegen/figure.py` lines 257–268 and analogues). -/
def subplotFilterDoc (singular : String) : String :=
  "        selector: dict or None (default None)\n            Dict to use as selection criteria.\n            " ++ singular ++ " objects will be selected if they contain\n            properties corresponding to all of the dictionary\x27s keys, with\n            values that exactly match the supplied values. If None\n            (the default), all " ++ singular ++ " objects are selected.\n        row, col: int or None (default None)\n            Subplot row and column index of " ++ singular ++ " objects to select.\n            To select " ++ singular ++ " objects by row and column, the Figure\n            must have been created using plotly.subplots.make_subplots.\n            If None (the default), all " ++ singular ++ " objects are selected." ++
  secondaryYDocstring singular

/-- `codegen/figure.py` lines 248–277: the source text of the generated
`select_<plural>` method. -/
def selectSubplotSrc (singular plural : String) : String :=
  "\n\n    def select_" ++ plural ++ "(\n            self, selector=None, row=None, col=None" ++ secondaryY1 singular ++ "):\n" ++
  "        \"\"\"\n        Select " ++ singular ++ " subplot objects from a particular subplot cell\n        and/or " ++ singular ++ " subplot objects that satisfy custom selection\n        criteria.\n\n        Parameters\n        ----------\n" ++
  subplotFilterDoc singular ++
  "\n        Returns\n        -------\n        generator\n            Generator that iterates through all of the " ++ singular ++ "\n            objects that satisfy all of the specified selection criteria\n        \"\"\"\n\n        return self._select_layout_subplots_by_prefix(\n            \x27" ++ singular ++ "\x27, selector, row, col" ++ secondaryY2 singular ++ ")"

/-- `codegen/figure.py` lines 279–310: the source text of the generated
`for_each_<singular>` method. -/
def forEachSubplotSrc (singular plural : String) : String :=
  "\n\n    def for_each_" ++ singular ++ "(\n            self, fn, selector=None, row=None, col=None" ++ secondaryY1 singular ++ "):\n" ++
  "        \"\"\"\n        Apply a function to all " ++ singular ++ " objects that satisfy the\n        specified selection criteria\n        \n        Parameters\n        ----------\n        fn:\n            Function that inputs a single " ++ singular ++ " object.\n" ++
  subplotFilterDoc singular ++
  "\n        Returns\n        -------\n        self\n            Returns the Figure object that the method was called on\n        \"\"\"\n        for obj in self.select_" ++ plural ++ "(\n                selector=selector, row=row, col=col" ++ secondaryY2 singular ++ "):\n            fn(obj)\n\n        return self"

/-- `codegen/figure.py` lines 312–353: the source text of the generated
`update_<plural>` method. -/
def updateSubplotSrc (singular plural : String) : String :=
  "\n\n    def update_" ++ plural ++ "(\n            self,\n            patch=None,\n            selector=None,\n            row=None, col=None" ++ secondaryY1 singular ++ ",\n            **kwargs):\n" ++
  "        \"\"\"\n        Perform a property update operation on all " ++ singular ++ " objects\n        that satisfy the specified selection criteria\n        \n        Parameters\n        ----------\n        patch: dict\n            Dictionary of property updates to be applied to all\n            " ++ singular ++ " objects that satisfy the selection criteria.\n" ++
  subplotFilterDoc singular ++
  "\n        **kwargs\n            Additional property updates to apply to each selected\n            " ++ singular ++ " object. If a property is specified in\n            both patch and in **kwargs then the one in **kwargs\n            takes precedence.\n        Returns\n        -------\n        self\n            Returns the Figure object that the method was called on\n        \"\"\"\n        for obj in self.select_" ++ plural ++ "(\n                selector=selector, row=row, col=col" ++ secondaryY2 singular ++ "):\n            obj.update(patch, **kwargs)\n\n        return self"

/-- The three generated methods of one subplot family. -/
structure SubplotMethodsSrc where
  selectSrc : String
  forEachSrc : String
  updateSrc : String
deriving DecidableEq, Repr

/-- `codegen/figure.py` lines 220–353: the subplot-method block of one
family, built from its singular name and its pluralized name. -/
def subplotSection (singular plural : String) : SubplotMethodsSrc :=
  { selectSrc := selectSubplotSrc singular plural
    forEachSrc := forEachSubplotSrc singular plural
    updateSrc := updateSubplotSrc singular plural }

/-- One generated `add_*` method: signature, docstring, body. -/
structure GeneratedTraceMethod where
  sig : String
  doc : String
  body : String
deriving DecidableEq, Repr

/-- The structured output of `build_figure_py`. -/
structure GeneratedSource where
  importBase : String
  importTraces : String
  classHeader : String
  constructorSrc : String
  traceMethods : List GeneratedTraceMethod
  subplotSections : List SubplotMethodsSrc
deriving DecidableEq, Repr

/-- `codegen/figure.py` lines 87–120: the constructor block of the generated
figure class; the three descriptions come from the validator inputs. -/
def constructorText (figClassname dataDesc layoutDesc framesDesc : String) : String :=
  "\n    def __init__(self, data=None, layout=None,\n                 frames=None, skip_invalid=False, **kwargs):\n        \"\"\"\n        Create a new " ++ figClassname ++ " instance\n        \n        Parameters\n        ----------\n        data\n            " ++ dataDesc ++ "\n            \n        layout\n            " ++ layoutDesc ++ "\n            \n        frames\n            " ++ framesDesc ++ "\n            \n        skip_invalid: bool\n            If True, invalid properties in the figure specification will be\n            skipped silently. If False (default) invalid properties in the\n            figure specification will result in a ValueError\n\n        Raises\n        ------\n        ValueError\n            if a property in the specification of data, layout, or frames\n            is invalid AND skip_invalid is False\n        \"\"\"\n        super(" ++ figClassname ++ " ,self).__init__(data, layout,\n                                              frames, skip_invalid,\n                                              **kwargs)\n    "

/-- Embedding of `build_figure_py` (`codegen/figure.py` lines 19–359) as a
structured source record.  The helpers that live outside the given source
tree (`add_constructor_params`, `add_docstring`, the reindented validator
descriptions and the `inflect` pluralizer) are abstract parameters. -/
def buildFigurePy
    (addParams : List String → List String → String)
    (addDoc : TraceNode → String → List (String × String) → String → String)
    (dataDesc layoutDesc framesDesc : String)
    (pluralOf : String → String)
    (traceNodes : List TraceNode)
    (basePackage baseClassname figClassname : String)
    (subplotNodes : List String) : GeneratedSource :=
  { importBase := "from plotly." ++ basePackage ++ " import " ++ baseClassname
    importTraces := "from plotly.graph_objs import (" ++
      String.intercalate ", " (traceNodes.map (fun t => t.datatypeClass)) ++ ")"
    classHeader := "class " ++ figClassname ++ "(" ++ baseClassname ++ "):"
    constructorSrc := constructorText figClassname dataDesc layoutDesc framesDesc
    traceMethods := traceNodes.map (fun t =>
      { sig := addTraceSig addParams t
        doc := addDoc t ("Add a new " ++ t.datatypeClass ++ " trace")
          (docExtras t) figClassname
        body := addTraceBody t })
    subplotSections := subplotNodes.map (fun sn => subplotSection sn (pluralOf sn)) }

/-! ## Helper lemmas for the claim theorems -/

theorem matchesMap_nil (o : Val) : matchesMap o [] = true := rfl

theorem matchesMap_cons (o : Val) (k : String) (e : Val)
    (rest : List (String × Val)) :
    matchesMap o ((k, e) :: rest) =
      (decide (lookupPath (tokenizePath k) o = some e) && matchesMap o rest) := rfl

theorem optEqNat_iff (row : Option Nat) (r : Nat) :
    optEqNat row r = true ↔ (row = none ∨ row = some r) := by
  cases row <;> simp [optEqNat]

theorem optEqBool_iff (secY : Option Bool) (b : Bool) :
    optEqBool secY b = true ↔ (secY = none ∨ secY = some b) := by
  cases secY <;> simp [optEqBool]

theorem posOk_resolved (fig : Figure) (t : Val) (row col : Option Nat)
    (secY : Option Bool) (pos : GridPos)
    (hres : resolvePos fig t = some pos) :
    posOk fig row col secY t =
      (optEqNat row pos.row && optEqNat col pos.col && optEqBool secY pos.secY) := by
  unfold posOk
  by_cases hall : (row.isNone && col.isNone && secY.isNone) = true
  · rw [if_pos hall]
    have h1 : row = none := Option.isNone_iff_eq_none.mp (by
      simp only [Bool.and_eq_true] at hall
      exact hall.1.1)
    have h2 : col = none := Option.isNone_iff_eq_none.mp (by
      simp only [Bool.and_eq_true] at hall
      exact hall.1.2)
    have h3 : secY = none := Option.isNone_iff_eq_none.mp (by
      simp only [Bool.and_eq_true] at hall
      exact hall.2)
    subst h1; subst h2; subst h3
    rfl
  · rw [if_neg hall, hres]

theorem posOk_gridless (fig : Figure) (t : Val) (row col : Option Nat)
    (secY : Option Bool) (hg : fig.gridMap = none)
    (hrc : row.isSome ∨ col.isSome) :
    posOk fig row col secY t = false := by
  unfold posOk
  have hall : (row.isNone && col.isNone && secY.isNone) = false := by
    rcases hrc with h | h
    · cases row with
      | none => simp at h
      | some r => simp
    · cases col with
      | none => simp at h
      | some c => simp
  rw [hall, if_neg (by simp)]
  unfold resolvePos
  rw [hg]

theorem filter_false_nil (p : Val → Bool) :
    ∀ l : List Val, (∀ t ∈ l, p t = false) → l.filter p = []
  | [], _ => rfl
  | t :: ts, h => by
    simp only [List.filter]
    rw [h t (List.mem_cons_self _ _)]
    exact filter_false_nil p ts (fun x hx => h x (List.mem_cons_of_mem _ hx))

theorem foldl_filter_step {σ : Type} (f : σ → Val → σ) (p : Val → Bool) :
    ∀ (l : List Val) (s : σ),
      l.foldl (fun s t => if p t then f s t else s) s = (l.filter p).foldl f s
  | [], s => rfl
  | t :: ts, s => by
    simp only [List.foldl, List.filter]
    cases hp : p t <;> simp [foldl_filter_step f p ts]

theorem foldl_snoc_id : ∀ (l acc : List Val),
    l.foldl (fun a t => a ++ [t]) acc = acc ++ l
  | [], acc => by simp
  | t :: ts, acc => by
    simp only [List.foldl]
    rw [foldl_snoc_id ts (acc ++ [t])]
    simp

theorem updateData_skip (patch overrides : List (PKey × PatchVal))
    (keep : Val → Bool) :
    ∀ l : List Val, (∀ t ∈ l, keep t = false) →
      updateData patch overrides keep l = some l
  | [], _ => rfl
  | t :: ts, h => by
    simp only [updateData]
    rw [h t (List.mem_cons_self _ _)]
    simp only [Bool.false_eq_true, if_false]
    rw [updateData_skip patch overrides keep ts
      (fun x hx => h x (List.mem_cons_of_mem _ hx))]

theorem updateData_forall2 (patch overrides : List (PKey × PatchVal))
    (keep : Val → Bool) :
    ∀ (l l' : List Val), updateData patch overrides keep l = some l' →
      List.Forall₂ (fun t t' =>
        (keep t = true → updateObj t patch overrides = some t')
        ∧ (keep t = false → t' = t)) l l'
  | [], l', h => by
    simp only [updateData, Option.some.injEq] at h
    rw [← h]
    exact List.Forall₂.nil
  | t :: ts, l', h => by
    simp only [updateData] at h
    cases hk : keep t with
    | true =>
      rw [hk] at h
      simp only [if_true] at h
      cases hupd : updateObj t patch overrides with
      | none => rw [hupd] at h; exact absurd h (by simp)
      | some t'' =>
        rw [hupd] at h
        cases hrec : updateData patch overrides keep ts with
        | none => rw [hrec] at h; exact absurd h (by simp)
        | some ts'' =>
          rw [hrec] at h
          simp only [Option.some.injEq] at h
          rw [← h]
          exact List.Forall₂.cons
            ⟨fun _ => hupd, fun hf => absurd hk (by simp [hf])⟩
            (updateData_forall2 patch overrides keep ts ts'' hrec)
    | false =>
      rw [hk] at h
      simp only [Bool.false_eq_true, if_false] at h
      cases hrec : updateData patch overrides keep ts with
      | none => rw [hrec] at h; exact absurd h (by simp)
      | some ts'' =>
        rw [hrec] at h
        simp only [Option.some.injEq] at h
        rw [← h]
        exact List.Forall₂.cons
          ⟨fun htr => absurd hk (by simp [htr]), fun _ => rfl⟩
          (updateData_forall2 patch overrides keep ts ts'' hrec)

/-! ## Claim theorems -/

/-- C1: for every object whose resolved selector-key value is a nested
property container, a mapping selector on that key matches exactly under full
structural equality of the container (a partial submap never matches), while
a dotted-leaf selector key matches exactly when the leaf path resolves to the
expected value. -/
theorem selector_submap_full_equality (o : Val) (m : List (String × Val))
    (hm : lookupPath (tokenizePath "marker") o = some (Val.obj m)) :
    (∀ e : Val, matchesMap o [("marker", e)] = true ↔ e = Val.obj m)
    ∧ (∀ c : Val, matchesMap o [("marker.color", c)] = true ↔
        lookupPath (tokenizePath "marker.color") o = some c) := by
  constructor
  · intro e
    rw [matchesMap_cons, matchesMap_nil, hm]
    simp [eq_comm]
  · intro c
    rw [matchesMap_cons, matchesMap_nil]
    simp

/-- Witness for C1: the scenario object with
`marker = {"color": "green", "size": 10}` is not matched by the partial
submap selector `{"marker": {"color": "green"}}` but is matched by the
dotted-leaf selector `{"marker.color": "green"}`. -/
theorem selector_submap_full_equality_witness :
    matchesMap trace0 [("marker", Val.obj [("color", Val.s "green")])] = false
    ∧ matchesMap trace0 [("marker.color", Val.s "green")] = true := by
  have h := selector_submap_full_equality trace0
    [("color", Val.s "green"), ("size", Val.i 10)] (by decide)
  constructor
  · cases hb : matchesMap trace0 [("marker", Val.obj [("color", Val.s "green")])] with
    | false => rfl
    | true => exact absurd ((h.1 (Val.obj [("color", Val.s "green")])).mp hb) (by decide)
  · exact (h.2 (Val.s "green")).mpr (by decide)

/-- C3: with an established grid, an object is yielded by trace selection
iff it is in the collection, each specified positional filter equals its
resolved coordinate, and the selector matches; in the 3×2 scenario,
`row=2, col=1` yields exactly the three traces of that cell and adding
`secondary_y=True` narrows the result to exactly the one secondary-axis
trace. -/
theorem select_traces_grid_iff (fig : Figure) (t : Val) (sel : Option Selector)
    (row col : Option Nat) (secY : Option Bool) (pos : GridPos)
    (hres : resolvePos fig t = some pos) :
    (t ∈ selectTraces fig sel row col secY ↔
      t ∈ fig.data ∧ (row = none ∨ row = some pos.row)
        ∧ (col = none ∨ col = some pos.col)
        ∧ (secY = none ∨ secY = some pos.secY)
        ∧ matchesOpt t sel = true)
    ∧ selectTraces figGrid none (some 2) (some 1) none = [trace2, trace3, trace9]
    ∧ selectTraces figGrid none (some 2) (some 1) (some true) = [trace9] := by
  refine ⟨?_, by decide, by decide⟩
  unfold selectTraces keepTrace
  rw [List.mem_filter, posOk_resolved fig t row col secY pos hres]
  simp only [Bool.and_eq_true, optEqNat_iff, optEqBool_iff]
  tauto

/-- Witness for C3: in the 3×2 scenario, the secondary-y trace at cell (2,1)
is yielded by `row=2, col=1` and by `row=2, col=1, secondary_y=True`. -/
theorem select_traces_grid_iff_witness :
    trace9 ∈ selectTraces figGrid none (some 2) (some 1) none
    ∧ trace9 ∈ selectTraces figGrid none (some 2) (some 1) (some true) := by
  have h := select_traces_grid_iff figGrid trace9 none (some 2) (some 1)
    (some true) ⟨2, 1, true⟩ (by decide)
  constructor
  · rw [h.2.1]
    decide
  · exact h.1.mpr ⟨by decide, Or.inr rfl, Or.inr rfl, Or.inr rfl, rfl⟩

/-- C4: `for_each` applies `fn` to exactly the objects `select` yields,
in the same order (the collector instantiation recovers the selection list
itself), and returns the figure the method was called on. -/
theorem for_each_trace_visits_select {σ : Type} (fig : Figure)
    (fn : σ → Val → σ) (s0 : σ) (sel : Option Selector) (row col : Option Nat)
    (secY : Option Bool) :
    forEachTrace fig fn s0 sel row col secY =
      ((selectTraces fig sel row col secY).foldl fn s0, fig)
    ∧ (forEachTrace fig (fun acc t => acc ++ [t]) ([] : List Val)
        sel row col secY).1 = selectTraces fig sel row col secY := by
  constructor
  · unfold forEachTrace selectTraces
    rw [foldl_filter_step]
  · unfold forEachTrace selectTraces
    rw [foldl_filter_step, foldl_snoc_id]
    simp

/-- C7: on a figure without grid metadata, specifying a row or a column
yields an empty result from select, a no-op visit from for_each and an
unchanged figure from update (no error), while leaving the positional
filters unspecified selects by the selector as usual. -/
theorem gridless_row_col_empty {σ : Type} (fig : Figure)
    (hg : fig.gridMap = none) (sel : Option Selector) (row col : Option Nat)
    (secY : Option Bool) (hrc : row.isSome ∨ col.isSome)
    (patch overrides : List (PKey × PatchVal)) (fn : σ → Val → σ) (s0 : σ) :
    selectTraces fig sel row col secY = []
    ∧ forEachTrace fig fn s0 sel row col secY = (s0, fig)
    ∧ updateTraces fig patch sel row col secY overrides = some fig
    ∧ selectTraces fig sel none none none =
        fig.data.filter (fun t => matchesOpt t sel) := by
  have hkeep : ∀ t ∈ fig.data, keepTrace fig sel row col secY t = false := by
    intro t _
    unfold keepTrace
    rw [posOk_gridless fig t row col secY hg hrc]
    rfl
  refine ⟨?_, ?_, ?_, ?_⟩
  · unfold selectTraces
    exact filter_false_nil _ fig.data hkeep
  · unfold forEachTrace
    rw [foldl_filter_step, filter_false_nil _ fig.data hkeep]
    rfl
  · unfold updateTraces
    rw [updateData_skip patch overrides _ fig.data hkeep]
  · unfold selectTraces keepTrace
    apply List.filter_congr
    intro t _
    rfl

/-- Witness for C7: on the grid-less scenario figure, `row=2` selects
nothing and updates nothing, while the unfiltered selection is the full
selector filter. -/
theorem gridless_row_col_empty_witness :
    selectTraces figNoGrid none (some 2) none none = []
    ∧ updateTraces figNoGrid [] none (some 2) none none [] = some figNoGrid := by
  have h := gridless_row_col_empty (σ := Unit) figNoGrid rfl none (some 2) none
    none (Or.inl rfl) [] [] (fun s _ => s) ()
  exact ⟨h.1, h.2.2.1⟩

/-- C8: `update_traces` with a selector matching zero objects leaves the
figure unchanged and still returns the figure the method was called on. -/
theorem update_zero_match_unchanged (fig : Figure) (S : Selector)
    (patch overrides : List (PKey × PatchVal)) (row col : Option Nat)
    (secY : Option Bool)
    (hnone : ∀ t ∈ fig.data, matchesSelector t S = false) :
    updateTraces fig patch (some S) row col secY overrides = some fig := by
  unfold updateTraces
  rw [updateData_skip patch overrides _ fig.data (by
    intro t ht
    unfold keepTrace
    simp only [matchesOpt, hnone t ht, Bool.and_false])]

/-- Witness for C8: updating with selector `{"type": "pie"}` (matched by no
trace of the scenario figure) returns the figure unchanged. -/
theorem update_zero_match_unchanged_witness :
    updateTraces figGrid [(PKey.str "visible", PatchVal.v (Val.s "legendonly"))]
      (some (Selector.map [("type", Val.s "pie")])) none none none []
      = some figGrid :=
  update_zero_match_unchanged figGrid (Selector.map [("type", Val.s "pie")])
    [(PKey.str "visible", PatchVal.v (Val.s "legendonly"))] [] none none none
    (by decide)

/-- C2: the three patch syntaxes — dotted string keys, underscore
flattened keys, and nested mappings — of a list of assignments over
representable paths all normalize to the same ordered sequence of
(path, value) assignments, hence applying any of them to equal starting
objects produces equal resulting objects. -/
theorem patch_three_syntaxes_equivalent (asgs : List (List Seg × Val))
    (h : ∀ a ∈ asgs, ValidPath a.1) :
    normalizePatch (nestedPatch asgs) = asgs
    ∧ normalizePatch (dottedPatch asgs) = asgs
    ∧ normalizePatch (underscorePatch asgs) = asgs
    ∧ ∀ o : Val,
        updateObj o (dottedPatch asgs) [] = updateObj o (nestedPatch asgs) []
        ∧ updateObj o (underscorePatch asgs) [] =
            updateObj o (nestedPatch asgs) [] := by
  refine ⟨normalizePatch_nested asgs h, normalizePatch_dotted asgs h,
    normalizePatch_underscore asgs h, ?_⟩
  intro o
  unfold updateObj
  rw [normalizePatch_nested asgs h, normalizePatch_dotted asgs h,
    normalizePatch_underscore asgs h]
  exact ⟨rfl, rfl⟩

/-- Witness for C2: the marker-line-color assignment of the test scenario:
its dotted, underscore and nested patch forms normalize identically and
update the scatter3d trace identically. -/
theorem patch_three_syntaxes_equivalent_witness :
    normalizePatch (dottedPatch
        [([Seg.name "marker", Seg.name "line", Seg.name "color"],
          Val.s "yellow")])
      = [([Seg.name "marker", Seg.name "line", Seg.name "color"],
          Val.s "yellow")]
    ∧ updateObj trace4 (dottedPatch
        [([Seg.name "marker", Seg.name "line", Seg.name "color"],
          Val.s "yellow")]) []
      = updateObj trace4 (nestedPatch
        [([Seg.name "marker", Seg.name "line", Seg.name "color"],
          Val.s "yellow")]) [] := by
  have h := patch_three_syntaxes_equivalent
    [([Seg.name "marker", Seg.name "line", Seg.name "color"], Val.s "yellow")]
    (by decide)
  exact ⟨h.2.1, (h.2.2.2 trace4).1⟩

/-- Counterexample for C5: idempotence fails for an arbitrary value-only
patch: the patch `{"a.b": 1, "a": 5}` applies successfully once (the later
assignment overwrites the container at `a` with the leaf `5`) but errors on
the second application (the leaf at `a` cannot be traversed), so applying
the same normalized patch twice does not yield the same final state as
applying it once. -/
theorem update_idempotent_cex :
    updateObj (Val.obj [])
      [(PKey.str "a.b", PatchVal.v (Val.i 1)),
       (PKey.str "a", PatchVal.v (Val.i 5))] []
      = some (Val.obj [("a", Val.i 5)])
    ∧ updateObj (Val.obj [("a", Val.i 5)])
      [(PKey.str "a.b", PatchVal.v (Val.i 1)),
       (PKey.str "a", PatchVal.v (Val.i 5))] []
      = none := by decide

/-- Amended C5: update is idempotent for patches whose normalized
assignment paths pairwise diverge (no duplicate paths and no path a prefix
of another): if one application succeeds, applying the same patch again
succeeds and yields the same final state (assignments are absolute value
sets, not deltas). -/
theorem update_idempotent_amended (o o₁ : Val) (patch : List (PKey × PatchVal))
    (hdiv : (normalizePatch patch).Pairwise (fun a c => Diverge a.1 c.1 = true))
    (h : updateObj o patch [] = some o₁) :
    updateObj o₁ patch [] = some o₁ := by
  unfold updateObj at h ⊢
  rw [show normalizePatch ([] : List (PKey × PatchVal)) = [] from rfl,
    List.append_nil] at h ⊢
  exact applyAssignments_idem _ o o₁ hdiv h

/-- The scatter3d scenario trace after `marker_line_color = "pink"`. -/
def trace4PinkLine : Val :=
  Val.obj [("type", Val.s "scatter3d"), ("mode", Val.s "markers"),
    ("name", Val.s "E"),
    ("marker", Val.obj [("color", Val.s "green"), ("size", Val.i 10),
      ("line", Val.obj [("color", Val.s "pink")])]),
    ("scene", Val.s "scene")]

/-- Witness for amended C5: re-applying the underscore patch
`{"marker_line_color": "pink"}` to the already-updated scatter3d trace is a
no-op. -/
theorem update_idempotent_amended_witness :
    updateObj trace4PinkLine
      [(PKey.str "marker_line_color", PatchVal.v (Val.s "pink"))] []
      = some trace4PinkLine :=
  update_idempotent_amended trace4 trace4PinkLine
    [(PKey.str "marker_line_color", PatchVal.v (Val.s "pink"))]
    (by decide) (by decide)

/-- C6: when the patch and the keyword overrides assign the same property
path, the override value wins — the result equals updating with the
override alone, and the path resolves to the override value — and every
selected object of an `update_traces` call ends in the same state as if it
had been updated directly with the patch and the overrides together (while
unselected objects are untouched). -/
theorem update_overrides_precedence :
    (∀ (o : Val) (k : String) (v₁ v₂ o' : Val),
      updateObj o [(PKey.str k, PatchVal.v v₁)]
          [(PKey.str k, PatchVal.v v₂)] = some o' →
      lookupPath (tokenizePath k) o' = some v₂
      ∧ updateObj o [] [(PKey.str k, PatchVal.v v₂)] = some o')
    ∧ (∀ (fig : Figure) (patch overrides : List (PKey × PatchVal))
        (sel : Option Selector) (row col : Option Nat) (secY : Option Bool)
        (fig' : Figure),
      updateTraces fig patch sel row col secY overrides = some fig' →
      List.Forall₂ (fun t t' =>
        (keepTrace fig sel row col secY t = true →
          updateObj t patch overrides = some t')
        ∧ (keepTrace fig sel row col secY t = false → t' = t))
        fig.data fig'.data) := by
  constructor
  · intro o k v₁ v₂ o' h
    unfold updateObj at h
    have hnorm : normalizePatch [(PKey.str k, PatchVal.v v₁)] ++
        normalizePatch [(PKey.str k, PatchVal.v v₂)] =
        [(tokenizePath k, v₁), (tokenizePath k, v₂)] := by
      simp [normalizePatch, flattenEntries_cons, flattenEntries_nil, flattenPV_v,
        keySegs]
    rw [hnorm] at h
    simp only [applyAssignments] at h
    cases hset1 : setPath (tokenizePath k) o v₁ with
    | none => rw [hset1] at h; exact absurd h (by simp)
    | some a =>
      simp only [hset1] at h
      cases hset2 : setPath (tokenizePath k) a v₂ with
      | none => simp [hset2] at h
      | some o'' =>
        simp only [hset2, Option.some.injEq] at h
        subst h
        refine ⟨lookupPath_setPath _ a v₂ o'' hset2, ?_⟩
        unfold updateObj
        have hnorm2 : normalizePatch ([] : List (PKey × PatchVal)) ++
            normalizePatch [(PKey.str k, PatchVal.v v₂)] =
            [(tokenizePath k, v₂)] := by
          simp [normalizePatch, flattenEntries_cons, flattenEntries_nil,
            flattenPV_v, keySegs]
        rw [hnorm2]
        simp only [applyAssignments]
        rw [← setPath_setPath v₂ (tokenizePath k) o v₁ a hset1, hset2]
  · intro fig patch overrides sel row col secY fig' h
    unfold updateTraces at h
    cases hdata : updateData patch overrides
        (keepTrace fig sel row col secY) fig.data with
    | none => rw [hdata] at h; exact absurd h (by simp)
    | some d =>
      rw [hdata] at h
      simp only [Option.some.injEq] at h
      have hd : fig'.data = d := by rw [← h]
      rw [hd]
      exact updateData_forall2 patch overrides _ fig.data d hdata

/-- Witness for C6: patch `{"marker.size": 5}` with override
`marker_size=7` on the scenario scatter trace: the override wins and the
result equals updating with the override alone. -/
theorem update_overrides_precedence_witness :
    lookupPath (tokenizePath "marker.size")
      (Val.obj [("type", Val.s "scatter"), ("mode", Val.s "markers"),
        ("name", Val.s "A"),
        ("marker", Val.obj [("color", Val.s "green"), ("size", Val.i 7)]),
        ("xaxis", Val.s "x"), ("yaxis", Val.s "y")]) = some (Val.i 7) := by
  have h := (update_overrides_precedence.1 trace0 "marker.size"
    (Val.i 5) (Val.i 7)
    (Val.obj [("type", Val.s "scatter"), ("mode", Val.s "markers"),
      ("name", Val.s "A"),
      ("marker", Val.obj [("color", Val.s "green"), ("size", Val.i 7)]),
      ("xaxis", Val.s "x"), ("yaxis", Val.s "y")]) (by decide))
  exact h.1

/-- C9: the generated `select_F`, `for_each_f` and `update_F` subplot
methods have identical selection contracts (the same selector/row/col filter
parameters in the same order), and a `secondary_y` parameter appears in each
of the three signatures — and is threaded to the underlying selection call —
if and only if the family's singular name is `yaxis`. -/
theorem subplot_secondary_y_iff_yaxis (singular : String)
    (hs : singular ≠ "secondary_y=secondary_y") :
    (("secondary_y=None" ∈ selectSubplotParams singular) ↔ singular = "yaxis")
    ∧ (("secondary_y=None" ∈ forEachSubplotParams singular) ↔
        singular = "yaxis")
    ∧ (("secondary_y=None" ∈ updateSubplotParams singular) ↔
        singular = "yaxis")
    ∧ (("secondary_y=secondary_y" ∈ selectSubplotCallArgs singular) ↔
        singular = "yaxis")
    ∧ forEachSubplotParams singular =
        ["self", "fn"] ++ (selectSubplotParams singular).drop 1
    ∧ updateSubplotParams singular =
        ["self", "patch=None"] ++ (selectSubplotParams singular).drop 1 ++
          ["**kwargs"] := by
  by_cases hy : singular = "yaxis" <;>
    simp [selectSubplotParams, forEachSubplotParams, updateSubplotParams,
      selectSubplotCallArgs, hy, hs, hs.symm]

/-- Witness for C9: the select signature of the y-axis family has the
`secondary_y` parameter; that of the polar family does not. -/
theorem subplot_secondary_y_iff_yaxis_witness :
    ("secondary_y=None" ∈ selectSubplotParams "yaxis")
    ∧ ("secondary_y=None" ∉ selectSubplotParams "polar") := by
  constructor
  · exact (subplot_secondary_y_iff_yaxis "yaxis" (by decide)).1.mpr rfl
  · intro hmem
    exact absurd ((subplot_secondary_y_iff_yaxis "polar" (by decide)).1.mp hmem)
      (by decide)

/-- C10: for fixed generator inputs, the Figure class (built on
`basedatatypes.BaseFigure`) and the FigureWidget class (built on
`basewidget.BaseFigureWidget`) come out of the identical template: the
subplot select/for_each/update sections and the trace-import line are
literally equal; every generated `add_*` method has a textually identical
signature and body in the two classes and its docstring is the same
docstring builder applied at the two documented return types; only the
superclass import line, the class header and the constructor (the pieces
naming the class and its superclass) differ, in the stated way. -/
theorem figure_figurewidget_same_template
    (addParams : List String → List String → String)
    (addDoc : TraceNode → String → List (String × String) → String → String)
    (dataDesc layoutDesc framesDesc : String)
    (pluralOf : String → String)
    (traceNodes : List TraceNode) (subplotNodes : List String) :
    (buildFigurePy addParams addDoc dataDesc layoutDesc framesDesc pluralOf
        traceNodes "basewidget" "BaseFigureWidget" "FigureWidget"
        subplotNodes).subplotSections
      = (buildFigurePy addParams addDoc dataDesc layoutDesc framesDesc pluralOf
        traceNodes "basedatatypes" "BaseFigure" "Figure"
        subplotNodes).subplotSections
    ∧ (buildFigurePy addParams addDoc dataDesc layoutDesc framesDesc pluralOf
        traceNodes "basewidget" "BaseFigureWidget" "FigureWidget"
        subplotNodes).importTraces
      = (buildFigurePy addParams addDoc dataDesc layoutDesc framesDesc pluralOf
        traceNodes "basedatatypes" "BaseFigure" "Figure"
        subplotNodes).importTraces
    ∧ (buildFigurePy addParams addDoc dataDesc layoutDesc framesDesc pluralOf
        traceNodes "basewidget" "BaseFigureWidget" "FigureWidget"
        subplotNodes).traceMethods.map (fun m => m.sig)
      = (buildFigurePy addParams addDoc dataDesc layoutDesc framesDesc pluralOf
        traceNodes "basedatatypes" "BaseFigure" "Figure"
        subplotNodes).traceMethods.map (fun m => m.sig)
    ∧ (buildFigurePy addParams addDoc dataDesc layoutDesc framesDesc pluralOf
        traceNodes "basewidget" "BaseFigureWidget" "FigureWidget"
        subplotNodes).traceMethods.map (fun m => m.body)
      = (buildFigurePy addParams addDoc dataDesc layoutDesc framesDesc pluralOf
        traceNodes "basedatatypes" "BaseFigure" "Figure"
        subplotNodes).traceMethods.map (fun m => m.body)
    ∧ (buildFigurePy addParams addDoc dataDesc layoutDesc framesDesc pluralOf
        traceNodes "basewidget" "BaseFigureWidget" "FigureWidget"
        subplotNodes).traceMethods.map (fun m => m.doc)
      = traceNodes.map (fun t =>
          addDoc t ("Add a new " ++ t.datatypeClass ++ " trace") (docExtras t)
            "FigureWidget")
    ∧ (buildFigurePy addParams addDoc dataDesc layoutDesc framesDesc pluralOf
        traceNodes "basedatatypes" "BaseFigure" "Figure"
        subplotNodes).traceMethods.map (fun m => m.doc)
      = traceNodes.map (fun t =>
          addDoc t ("Add a new " ++ t.datatypeClass ++ " trace") (docExtras t)
            "Figure")
    ∧ (buildFigurePy addParams addDoc dataDesc layoutDesc framesDesc pluralOf
        traceNodes "basewidget" "BaseFigureWidget" "FigureWidget"
        subplotNodes).importBase
      = "from plotly.basewidget import BaseFigureWidget"
    ∧ (buildFigurePy addParams addDoc dataDesc layoutDesc framesDesc pluralOf
        traceNodes "basedatatypes" "BaseFigure" "Figure"
        subplotNodes).importBase
      = "from plotly.basedatatypes import BaseFigure"
    ∧ (buildFigurePy addParams addDoc dataDesc layoutDesc framesDesc pluralOf
        traceNodes "basewidget" "BaseFigureWidget" "FigureWidget"
        subplotNodes).classHeader
      = "class FigureWidget(BaseFigureWidget):"
    ∧ (buildFigurePy addParams addDoc dataDesc layoutDesc framesDesc pluralOf
        traceNodes "basedatatypes" "BaseFigure" "Figure"
        subplotNodes).classHeader
      = "class Figure(BaseFigure):"
    ∧ (buildFigurePy addParams addDoc dataDesc layoutDesc framesDesc pluralOf
        traceNodes "basewidget" "BaseFigureWidget" "FigureWidget"
        subplotNodes).constructorSrc
      = constructorText "FigureWidget" dataDesc layoutDesc framesDesc
    ∧ (buildFigurePy addParams addDoc dataDesc layoutDesc framesDesc pluralOf
        traceNodes "basedatatypes" "BaseFigure" "Figure"
        subplotNodes).constructorSrc
      = constructorText "Figure" dataDesc layoutDesc framesDesc := by
  refine ⟨rfl, rfl, ?_, ?_, ?_, ?_, rfl, rfl, rfl, rfl, rfl, rfl⟩ <;>
    simp [buildFigurePy, List.map_map]
